import Mathlib

/-!
Verification development for the Bardrix-based ray tracer.

The C++ sources embedded here:
  * `src/.../src/bardrix/color.cpp`   — the packed 4-channel color arithmetic;
  * `src/.../include/bardrix/objects.h` — the material model (member function
    bodies are absent from the sources, so they are modelled from the header's
    doc comments and the spec);
  * `src/unnamed/part_000`            — `calculate_light_intensity` and the
    per-pixel render loop of `window.on_paint`.

Doubles are modelled exactly, as elements of a linear ordered field with a
floor (instantiated at `ℚ` for the color arithmetic and at `ℝ` for the
geometry, which needs square roots).  `unsigned char` channels are `ℕ`
with an explicit validity predicate `Color.valid` (every channel `< 256`);
a `static_cast<color::uchar>` of a double is truncation toward zero
followed by reduction mod 256.
-/

/-- A `bardrix::color`: four 8-bit unsigned channels `r, g, b, a`
(bytes 0..3, in ascending order, of the packed 32-bit `rgba` view). -/
structure Color where
  r : ℕ
  g : ℕ
  b : ℕ
  a : ℕ
  deriving DecidableEq, Repr

/-- In C++ every channel is an `unsigned char`, hence `< 256`. -/
def Color.valid (c : Color) : Prop :=
  c.r < 256 ∧ c.g < 256 ∧ c.b < 256 ∧ c.a < 256

instance (c : Color) : Decidable c.valid := by
  unfold Color.valid; infer_instance

/-- The packed 32-bit `rgba` view of the union: byte 0 = r, 1 = g, 2 = b,
3 = a (little-endian layout of `struct r_g_b_a` overlaid on `unsigned rgba`). -/
def Color.rgba (c : Color) : ℕ :=
  c.r + 256 * c.g + 65536 * c.b + 16777216 * c.a

/-- Rebuild the four channels from a packed 32-bit value. -/
def Color.ofRgba (n : ℕ) : Color :=
  ⟨n % 256, n / 256 % 256, n / 65536 % 256, n / 16777216 % 256⟩

section FieldOps

variable {α : Type*} [LinearOrderedField α] [FloorRing α]

/-- Modelled from the spec: the fixed tolerance used by the Bardrix
`nearly_equal` comparison utility (`bardrix/math.h` is not among the
sources); a small positive epsilon absorbing floating rounding noise. -/
def tolEps : α := 1 / 100000

/-- Modelled from the spec: `bardrix::nearly_equal`, the tolerance-based
equality comparison used instead of exact `==` on doubles. -/
def nearlyEqual (x y : α) : Prop := |x - y| < tolEps

instance (x y : α) : Decidable (nearlyEqual x y) :=
  inferInstanceAs (Decidable (|x - y| < tolEps))

/-- Modelled from the spec: `bardrix::less_than_or_nearly_equal`, the
tolerance-based `≤` comparison on doubles. -/
def lessThanOrNearlyEqual (x y : α) : Prop := x < y ∨ nearlyEqual x y

instance (x y : α) : Decidable (lessThanOrNearlyEqual x y) :=
  inferInstanceAs (Decidable (x < y ∨ nearlyEqual x y))

/-- `static_cast<color::uchar>` applied to a double: truncation toward
zero to an integer, then reduction into the 8-bit range. -/
def castUchar (x : α) : ℕ :=
  ((if 0 ≤ x then ⌊x⌋ else ⌈x⌉) % 256).toNat

/-- `color::operator*=(double)` from color.cpp: if the scalar is
`less_than_or_nearly_equal` to 0 the channels are first zeroed; then (the
code falls through) every channel becomes
`static_cast<uchar>(channel * scalar <= UCHAR_MAX ? channel * scalar : UCHAR_MAX)`. -/
def Color.mulScalar (c : Color) (s : α) : Color :=
  let c0 : Color := if lessThanOrNearlyEqual s 0 then ⟨0, 0, 0, 0⟩ else c
  { r := castUchar (if (c0.r : α) * s ≤ 255 then (c0.r : α) * s else 255)
    g := castUchar (if (c0.g : α) * s ≤ 255 then (c0.g : α) * s else 255)
    b := castUchar (if (c0.b : α) * s ≤ 255 then (c0.b : α) * s else 255)
    a := castUchar (if (c0.a : α) * s ≤ 255 then (c0.a : α) * s else 255) }

/-- `color::operator/=(double)` from color.cpp: throws "Division by zero"
when the scalar is `nearly_equal` to 0, "Division by negative number" when
it is negative; otherwise every channel becomes
`static_cast<uchar>(channel / scalar <= UCHAR_MAX ? channel / scalar : UCHAR_MAX)`.
Both throws happen before any channel is written, so the failing cases
leave the color untouched and are modelled by `Except.error`. -/
def Color.divScalar (c : Color) (s : α) : Except String Color :=
  if nearlyEqual s 0 then .error "Division by zero"
  else if s < 0 then .error "Division by negative number"
  else .ok
    { r := castUchar (if (c.r : α) / s ≤ 255 then (c.r : α) / s else 255)
      g := castUchar (if (c.g : α) / s ≤ 255 then (c.g : α) / s else 255)
      b := castUchar (if (c.b : α) / s ≤ 255 then (c.b : α) / s else 255)
      a := castUchar (if (c.a : α) / s ≤ 255 then (c.a : α) / s else 255) }

/-- `operator/(double, const color&)` from color.cpp (reflected division):
throws "Division by zero" when any channel is exactly 0, "Division by
negative number" when the scalar is negative; otherwise every channel
becomes `static_cast<uchar>(scalar / channel <= UCHAR_MAX ? ... : UCHAR_MAX)`. -/
def scalarDivColor (s : α) (c : Color) : Except String Color :=
  if c.r = 0 ∨ c.g = 0 ∨ c.b = 0 ∨ c.a = 0 then .error "Division by zero"
  else if s < 0 then .error "Division by negative number"
  else .ok
    { r := castUchar (if s / (c.r : α) ≤ 255 then s / (c.r : α) else 255)
      g := castUchar (if s / (c.g : α) ≤ 255 then s / (c.g : α) else 255)
      b := castUchar (if s / (c.b : α) ≤ 255 then s / (c.b : α) else 255)
      a := castUchar (if s / (c.a : α) ≤ 255 then s / (c.a : α) else 255) }

/-- `std::round`: round half away from zero, as used by `color::grayscale`. -/
def roundHalfAway (x : α) : ℤ :=
  if 0 ≤ x then ⌊x + 1 / 2⌋ else ⌈x - 1 / 2⌉

/-- The gray level of `color::grayscale` from color.cpp:
`static_cast<uchar>(std::round(0.299 * r + 0.587 * g + 0.114 * b))`,
computed once from the original three channels. -/
def grayLevel (r g b : ℕ) : ℕ :=
  (roundHalfAway ((299 / 1000 : α) * r + (587 / 1000 : α) * g + (114 / 1000 : α) * b) % 256).toNat

/-- `color::grayscaled` from color.cpp: the gray level is computed once
from the original channels, then assigned to r, g and b; alpha untouched. -/
def Color.grayscaled (c : Color) : Color :=
  let gray : ℕ := grayLevel (α := α) c.r c.g c.b
  { r := gray, g := gray, b := gray, a := c.a }

end FieldOps

/-- `color::operator+=(const color&)` from color.cpp: per channel,
`ch <= UCHAR_MAX - other.ch ? ch + other.ch : UCHAR_MAX` (the comparison
happens after integer promotion, hence over `ℤ`). -/
def Color.add (c o : Color) : Color :=
  { r := if (c.r : ℤ) ≤ 255 - (o.r : ℤ) then c.r + o.r else 255
    g := if (c.g : ℤ) ≤ 255 - (o.g : ℤ) then c.g + o.g else 255
    b := if (c.b : ℤ) ≤ 255 - (o.b : ℤ) then c.b + o.b else 255
    a := if (c.a : ℤ) ≤ 255 - (o.a : ℤ) then c.a + o.a else 255 }

/-- `color::operator-=(const color&)` from color.cpp: per channel,
`ch >= other.ch ? ch - other.ch : 0`. -/
def Color.sub (c o : Color) : Color :=
  { r := if o.r ≤ c.r then c.r - o.r else 0
    g := if o.g ≤ c.g then c.g - o.g else 0
    b := if o.b ≤ c.b then c.b - o.b else 0
    a := if o.a ≤ c.a then c.a - o.a else 0 }

/-- `color::operator%=(uchar)` from color.cpp: throws "Division by zero"
when the scalar is 0 (before any write); otherwise every channel is
reduced modulo the scalar. -/
def Color.modScalar (c : Color) (s : ℕ) : Except String Color :=
  if s = 0 then .error "Division by zero"
  else .ok ⟨c.r % s, c.g % s, c.b % s, c.a % s⟩

/-- `operator%(uchar, const color&)` from color.cpp (reflected modulo):
throws "Division by zero" when any channel is exactly 0; otherwise each
resulting channel is `static_cast<uchar>(scalar % channel)`. -/
def scalarModColor (s : ℕ) (c : Color) : Except String Color :=
  if c.r = 0 ∨ c.g = 0 ∨ c.b = 0 ∨ c.a = 0 then .error "Division by zero"
  else .ok ⟨s % c.r % 256, s % c.g % 256, s % c.b % 256, s % c.a % 256⟩

/-- `color::operator~` from color.cpp: the packed value XOR `0x00FFFFFF`.
`color::inverted` returns `~*this`. -/
def Color.inverted (c : Color) : Color :=
  Color.ofRgba (c.rgba ^^^ 0x00FFFFFF)

/-! ### Support lemmas -/

section TolLemmas

variable {α : Type*} [LinearOrderedField α]

lemma tolEps_pos : (0 : α) < tolEps := by
  unfold tolEps; norm_num

lemma lessThanOrNearlyEqual_of_nonpos {x : α} (h : x ≤ 0) :
    lessThanOrNearlyEqual x 0 := by
  rcases lt_or_eq_of_le h with h' | h'
  · exact Or.inl h'
  · exact Or.inr (by unfold nearlyEqual; rw [h', sub_zero, abs_zero]; exact tolEps_pos)

lemma pos_of_not_lessThanOrNearlyEqual {x : α} (h : ¬ lessThanOrNearlyEqual x 0) :
    0 < x := by
  by_contra h'
  exact h (lessThanOrNearlyEqual_of_nonpos (le_of_not_lt h'))

lemma not_lessThanOrNearlyEqual_of_le {x : α} (h : tolEps (α := α) ≤ x) :
    ¬ lessThanOrNearlyEqual x 0 := by
  intro hc
  rcases hc with hc | hc
  · exact absurd hc (not_lt.mpr (le_trans tolEps_pos.le h))
  · unfold nearlyEqual at hc
    rw [sub_zero, abs_of_nonneg (le_trans tolEps_pos.le h)] at hc
    exact absurd hc (not_lt.mpr h)

end TolLemmas

section CastLemmas

variable {α : Type*} [LinearOrderedField α] [FloorRing α]

lemma castUchar_of_nonneg_le {x : α} (h0 : 0 ≤ x) (h : ⌊x⌋ ≤ 255) :
    castUchar x = ⌊x⌋.toNat := by
  unfold castUchar
  rw [if_pos h0, Int.emod_eq_of_lt (Int.floor_nonneg.mpr h0) (by omega)]

lemma castUchar_natCast (n : ℕ) (h : n < 256) : castUchar (n : α) = n := by
  rw [castUchar_of_nonneg_le (by positivity) (by rw [Int.floor_natCast]; omega),
    Int.floor_natCast, Int.toNat_natCast]

lemma castUchar_zero : castUchar (0 : α) = 0 := by
  simpa using castUchar_natCast (α := α) 0 (by omega)

lemma castUchar_255 : castUchar (255 : α) = 255 := by
  simpa using castUchar_natCast (α := α) 255 (by omega)

end CastLemmas

/-- Splitting XOR along a power-of-two boundary: if both low parts are
below `2 ^ k`, XOR acts independently on the high and low parts. -/
lemma xor_two_pow_split (k : ℕ) :
    ∀ hi1 lo1 hi2 lo2 : ℕ, lo1 < 2 ^ k → lo2 < 2 ^ k →
      (2 ^ k * hi1 + lo1) ^^^ (2 ^ k * hi2 + lo2) = 2 ^ k * (hi1 ^^^ hi2) + (lo1 ^^^ lo2) := by
  induction k with
  | zero =>
    intro hi1 lo1 hi2 lo2 h1 h2
    interval_cases lo1
    interval_cases lo2
    simp
  | succ k ih =>
    intro hi1 lo1 hi2 lo2 h1 h2
    have hx : ∀ x y : ℕ, x ^^^ y = 2 * (x / 2 ^^^ y / 2) + (x + y) % 2 := by
      intro x y
      have hd : (x ^^^ y) / 2 = x / 2 ^^^ y / 2 := Nat.xor_div_two
      have hm : (x ^^^ y) % 2 = (x + y) % 2 := Nat.xor_mod_two_eq
      omega
    have hA1 : 2 ^ (k + 1) * hi1 = 2 * (2 ^ k * hi1) := by ring
    have hA2 : 2 ^ (k + 1) * hi2 = 2 * (2 ^ k * hi2) := by ring
    have hq : (2 : ℕ) ^ (k + 1) = 2 * 2 ^ k := by ring
    have hb1 : lo1 < 2 * 2 ^ k := by rw [← hq]; exact h1
    have hb2 : lo2 < 2 * 2 ^ k := by rw [← hq]; exact h2
    rw [hx]
    have d1 : (2 ^ (k + 1) * hi1 + lo1) / 2 = 2 ^ k * hi1 + lo1 / 2 := by
      rw [hA1]; omega
    have d2 : (2 ^ (k + 1) * hi2 + lo2) / 2 = 2 ^ k * hi2 + lo2 / 2 := by
      rw [hA2]; omega
    rw [d1, d2, ih hi1 (lo1 / 2) hi2 (lo2 / 2) (by omega) (by omega)]
    have hlx : lo1 ^^^ lo2 = 2 * (lo1 / 2 ^^^ lo2 / 2) + (lo1 + lo2) % 2 := hx lo1 lo2
    have hmod : (2 ^ (k + 1) * hi1 + lo1 + (2 ^ (k + 1) * hi2 + lo2)) % 2 = (lo1 + lo2) % 2 := by
      rw [hA1, hA2]; omega
    have hA3 : 2 ^ (k + 1) * (hi1 ^^^ hi2) = 2 * (2 ^ k * (hi1 ^^^ hi2)) := by ring
    rw [hmod, hA3]
    omega

/-- The channels of a valid color are recovered from its packed value. -/
lemma ofRgba_rgba {c : Color} (hc : c.valid) : Color.ofRgba c.rgba = c := by
  obtain ⟨r, g, b, a⟩ := c
  obtain ⟨h1, h2, h3, h4⟩ := hc
  simp only [Color.ofRgba, Color.rgba, Color.mk.injEq] at *
  refine ⟨?_, ?_, ?_, ?_⟩ <;> omega

/-- XOR with the mask 0x00FFFFFF acts on the packed value by XORing each of
the three low bytes with 0xFF and leaving the high (alpha) byte alone. -/
lemma rgba_xor_mask {c : Color} (hc : c.valid) :
    c.rgba ^^^ 0x00FFFFFF = Color.rgba ⟨c.r ^^^ 255, c.g ^^^ 255, c.b ^^^ 255, c.a⟩ := by
  obtain ⟨h1, h2, h3, _⟩ := hc
  have e1 : c.rgba = 2 ^ 8 * (c.g + 256 * c.b + 65536 * c.a) + c.r := by
    unfold Color.rgba; ring
  have e2 : (0x00FFFFFF : ℕ) = 2 ^ 8 * (255 + 256 * 255) + 255 := by norm_num
  rw [e1, e2, xor_two_pow_split 8 _ _ _ _ h1 (by norm_num)]
  have e3 : c.g + 256 * c.b + 65536 * c.a = 2 ^ 8 * (c.b + 256 * c.a) + c.g := by ring
  have e4 : (255 + 256 * 255 : ℕ) = 2 ^ 8 * (255 + 256 * 0) + 255 := by norm_num
  rw [e3, e4, xor_two_pow_split 8 _ _ _ _ h2 (by norm_num)]
  have e5 : c.b + 256 * c.a = 2 ^ 8 * c.a + c.b := by ring
  have e6 : (255 + 256 * 0 : ℕ) = 2 ^ 8 * 0 + 255 := by norm_num
  rw [e5, e6, xor_two_pow_split 8 _ _ _ _ h3 (by norm_num), Nat.xor_zero]
  unfold Color.rgba
  ring

/-- Validity is preserved by XORing channels with 0xFF. -/
lemma xor255_lt {n : ℕ} (h : n < 256) : n ^^^ 255 < 256 :=
  Nat.xor_lt_two_pow (n := 8) h (by norm_num)

/-- `color::operator~` acts channel-wise: r, g, b are XORed with 0xFF and
alpha is untouched. -/
lemma inverted_channels {c : Color} (hc : c.valid) :
    c.inverted = ⟨c.r ^^^ 255, c.g ^^^ 255, c.b ^^^ 255, c.a⟩ := by
  obtain ⟨h1, h2, h3, h4⟩ := hc
  unfold Color.inverted
  rw [rgba_xor_mask ⟨h1, h2, h3, h4⟩]
  exact ofRgba_rgba (c := ⟨c.r ^^^ 255, c.g ^^^ 255, c.b ^^^ 255, c.a⟩)
    ⟨xor255_lt h1, xor255_lt h2, xor255_lt h3, h4⟩

section ChannelLemmas

variable {α : Type*} [LinearOrderedField α] [FloorRing α]

lemma floor_255 : ⌊(255 : α)⌋ = 255 := by
  rw [show (255 : α) = ((255 : ℤ) : α) by norm_num, Int.floor_intCast]

/-- One channel of the saturating multiply: the source's
`cast(x <= 255 ? x : 255)` equals `min 255 ⌊x⌋` for nonnegative `x`. -/
lemma castUchar_saturate {x : α} (hx : 0 ≤ x) :
    castUchar (if x ≤ 255 then x else 255) = (min 255 ⌊x⌋).toNat := by
  rcases le_or_lt x 255 with hle | hlt
  · rw [if_pos hle]
    have h255 : ⌊x⌋ ≤ 255 := by
      have := Int.floor_le_floor hle
      rwa [floor_255] at this
    rw [castUchar_of_nonneg_le hx h255, min_eq_right h255]
  · rw [if_neg (not_le.mpr hlt), castUchar_255]
    have h255 : (255 : ℤ) ≤ ⌊x⌋ := by
      rw [Int.le_floor]
      push_cast
      linarith
    rw [min_eq_left h255]
    rfl

end ChannelLemmas

/-! ### C1 — scalar multiplication -/

/-- C1 (amended): for every color and scalar, `color::operator*=` yields all
four channels 0 when the scalar is tolerance-≤ 0, and otherwise each channel
is `min(255, trunc(channel * scalar))` — truncation toward zero performed by
the `static_cast`, not round-half-away-from-zero as the claim states. -/
theorem c1_mulScalar_spec (c : Color) (s : ℚ) :
    Color.mulScalar c s =
      if lessThanOrNearlyEqual s 0 then ⟨0, 0, 0, 0⟩
      else ⟨(min 255 ⌊(c.r : ℚ) * s⌋).toNat, (min 255 ⌊(c.g : ℚ) * s⌋).toNat,
            (min 255 ⌊(c.b : ℚ) * s⌋).toNat, (min 255 ⌊(c.a : ℚ) * s⌋).toNat⟩ := by
  by_cases h : lessThanOrNearlyEqual s 0
  · rw [if_pos h]
    simp only [Color.mulScalar, if_pos h]
    norm_num [castUchar_zero]
  · rw [if_neg h]
    have hs : 0 < s := pos_of_not_lessThanOrNearlyEqual h
    simp only [Color.mulScalar, if_neg h]
    have hch : ∀ n : ℕ, (0 : ℚ) ≤ (n : ℚ) * s := fun n => mul_nonneg (Nat.cast_nonneg n) hs.le
    rw [Color.mk.injEq]
    exact ⟨castUchar_saturate (hch c.r), castUchar_saturate (hch c.g),
      castUchar_saturate (hch c.b), castUchar_saturate (hch c.a)⟩

/-- C1 counterexample: at color (1,2,3,4) and scalar 3/2, the red channel the
code computes (trunc(1.5) = 1) differs from the claim's value
min(255, round-half-away-from-zero(1 * 3/2)) = 2. -/
theorem c1_mulScalar_counterexample :
    (Color.mulScalar ⟨1, 2, 3, 4⟩ ((3 : ℚ) / 2)).r ≠
      (min 255 (roundHalfAway ((1 : ℚ) * (3 / 2)))).toNat := by
  have hnt : ¬ lessThanOrNearlyEqual ((3 : ℚ) / 2) 0 :=
    not_lessThanOrNearlyEqual_of_le (by unfold tolEps; norm_num)
  have hl : (Color.mulScalar ⟨1, 2, 3, 4⟩ ((3 : ℚ) / 2)).r = 1 := by
    simp only [Color.mulScalar, if_neg hnt]
    have hcond : ((1 : ℕ) : ℚ) * (3 / 2) ≤ 255 := by norm_num
    rw [if_pos hcond]
    have hfl : ⌊((1 : ℕ) : ℚ) * (3 / 2)⌋ = 1 := by
      rw [Int.floor_eq_iff]
      norm_num
    rw [castUchar_of_nonneg_le (by norm_num) (by rw [hfl]; norm_num), hfl]
    rfl
  have hr : (min 255 (roundHalfAway ((1 : ℚ) * (3 / 2)))).toNat = 2 := by
    unfold roundHalfAway
    rw [if_pos (by norm_num)]
    have hfl : ⌊(1 : ℚ) * (3 / 2) + 1 / 2⌋ = 2 := by
      rw [Int.floor_eq_iff]
      norm_num
    rw [hfl]
    rfl
  rw [hl, hr]
  omega

/-! ### C2 — division and modulo error conditions -/

/-- C2: the four fallible color operations fail with an invalid-argument
error exactly when the divisor is invalid — color/scalar when the scalar is
tolerance-equal to 0 or negative, scalar/color when any channel is exactly 0
or the scalar is negative, color%scalar when the scalar is 0, scalar%color
when any channel is 0 — and succeed otherwise.  In the source every throw
precedes the first channel write, so a failing compound assignment leaves the
color unchanged; this is modelled by returning `Except.error` with no
modified color. -/
theorem c2_div_mod_errors (c : Color) (s : ℚ) (m : ℕ) :
    ((c.divScalar s).isOk = false ↔ (nearlyEqual s 0 ∨ s < 0)) ∧
    ((scalarDivColor s c).isOk = false ↔
      ((c.r = 0 ∨ c.g = 0 ∨ c.b = 0 ∨ c.a = 0) ∨ s < 0)) ∧
    ((c.modScalar m).isOk = false ↔ m = 0) ∧
    ((scalarModColor m c).isOk = false ↔ (c.r = 0 ∨ c.g = 0 ∨ c.b = 0 ∨ c.a = 0)) := by
  refine ⟨?_, ?_, ?_, ?_⟩
  · by_cases h1 : nearlyEqual s 0
    · simp [Color.divScalar, h1, Except.isOk, Except.toBool]
    · by_cases h2 : s < 0 <;>
        simp [Color.divScalar, h1, h2, Except.isOk, Except.toBool]
  · by_cases h1 : c.r = 0 ∨ c.g = 0 ∨ c.b = 0 ∨ c.a = 0
    · simp [scalarDivColor, h1, Except.isOk, Except.toBool]
    · by_cases h2 : s < 0 <;>
        simp [scalarDivColor, h1, h2, Except.isOk, Except.toBool]
  · by_cases h1 : m = 0 <;> simp [Color.modScalar, h1, Except.isOk, Except.toBool]
  · by_cases h1 : c.r = 0 ∨ c.g = 0 ∨ c.b = 0 ∨ c.a = 0 <;>
      simp [scalarModColor, h1, Except.isOk, Except.toBool]

/-! ### C6 — invert involution -/

/-- C6: inverting XORs the packed value with 0x00FFFFFF, leaves the alpha
byte untouched, and inverting twice restores the original color exactly. -/
theorem c6_invert_involution (c : Color) (hc : c.valid) :
    c.inverted.rgba = c.rgba ^^^ 0x00FFFFFF ∧ c.inverted.a = c.a ∧
      c.inverted.inverted = c := by
  obtain ⟨r, g, b, a⟩ := c
  obtain ⟨h1, h2, h3, h4⟩ := hc
  have hch : Color.inverted ⟨r, g, b, a⟩ = ⟨r ^^^ 255, g ^^^ 255, b ^^^ 255, a⟩ :=
    inverted_channels ⟨h1, h2, h3, h4⟩
  refine ⟨?_, ?_, ?_⟩
  · rw [hch, rgba_xor_mask (c := ⟨r, g, b, a⟩) ⟨h1, h2, h3, h4⟩]
  · rw [hch]
  · rw [hch, inverted_channels (c := ⟨r ^^^ 255, g ^^^ 255, b ^^^ 255, a⟩)
      ⟨xor255_lt h1, xor255_lt h2, xor255_lt h3, h4⟩]
    simp only [Color.mk.injEq]
    refine ⟨?_, ?_, ?_, trivial⟩ <;> rw [Nat.xor_assoc, Nat.xor_self, Nat.xor_zero]

/-- C6 witness: the involution at the concrete color (10, 20, 30, 40). -/
theorem c6_invert_involution_witness :
    Color.valid ⟨10, 20, 30, 40⟩ ∧
      ((Color.inverted ⟨10, 20, 30, 40⟩).rgba = Color.rgba ⟨10, 20, 30, 40⟩ ^^^ 0x00FFFFFF ∧
       (Color.inverted ⟨10, 20, 30, 40⟩).a = Color.a ⟨10, 20, 30, 40⟩ ∧
       (Color.inverted ⟨10, 20, 30, 40⟩).inverted = ⟨10, 20, 30, 40⟩) :=
  ⟨by decide, c6_invert_involution ⟨10, 20, 30, 40⟩ (by decide)⟩

/-! ### C7 — grayscale -/

lemma grayLevel_diag (v : ℕ) (hv : v < 256) : grayLevel (α := ℚ) v v v = v := by
  unfold grayLevel
  have hsum : (299 / 1000 : ℚ) * v + (587 / 1000 : ℚ) * v + (114 / 1000 : ℚ) * v = v := by
    ring
  rw [hsum]
  unfold roundHalfAway
  rw [if_pos (by positivity)]
  have hfl : ⌊(v : ℚ) + 1 / 2⌋ = (v : ℤ) := by
    rw [Int.floor_eq_iff]
    constructor
    · push_cast
      linarith
    · push_cast
      linarith
  rw [hfl]
  omega

lemma grayLevel_red : grayLevel (α := ℚ) 255 0 0 = 76 := by
  unfold grayLevel roundHalfAway
  have hsum : (299 / 1000 : ℚ) * (255 : ℕ) + (587 / 1000 : ℚ) * (0 : ℕ) +
      (114 / 1000 : ℚ) * (0 : ℕ) = 15249 / 200 := by
    push_cast
    ring
  rw [hsum, if_pos (by norm_num)]
  have hfl : ⌊(15249 / 200 : ℚ) + 1 / 2⌋ = 76 := by
    rw [Int.floor_eq_iff]
    norm_num
  rw [hfl]
  rfl

lemma grayLevel_green : grayLevel (α := ℚ) 0 255 0 = 150 := by
  unfold grayLevel roundHalfAway
  have hsum : (299 / 1000 : ℚ) * (0 : ℕ) + (587 / 1000 : ℚ) * (255 : ℕ) +
      (114 / 1000 : ℚ) * (0 : ℕ) = 29937 / 200 := by
    push_cast
    ring
  rw [hsum, if_pos (by norm_num)]
  have hfl : ⌊(29937 / 200 : ℚ) + 1 / 2⌋ = 150 := by
    rw [Int.floor_eq_iff]
    norm_num
  rw [hfl]
  rfl

lemma grayLevel_blue : grayLevel (α := ℚ) 0 0 255 = 29 := by
  unfold grayLevel roundHalfAway
  have hsum : (299 / 1000 : ℚ) * (0 : ℕ) + (587 / 1000 : ℚ) * (0 : ℕ) +
      (114 / 1000 : ℚ) * (255 : ℕ) = 2907 / 100 := by
    push_cast
    ring
  rw [hsum, if_pos (by norm_num)]
  have hfl : ⌊(2907 / 100 : ℚ) + 1 / 2⌋ = 29 := by
    rw [Int.floor_eq_iff]
    norm_num
  rw [hfl]
  rfl

/-- C7: grayscale replaces r, g and b by the single gray level computed once
from the original channels (so the three writes do not influence each other)
and leaves alpha unchanged; a true gray v maps to v, and pure red, green,
blue map to 76, 150 and 29 respectively. -/
theorem c7_grayscale (c : Color) (v a : ℕ) (hv : v < 256) :
    (Color.grayscaled (α := ℚ) c =
      ⟨grayLevel (α := ℚ) c.r c.g c.b, grayLevel (α := ℚ) c.r c.g c.b,
       grayLevel (α := ℚ) c.r c.g c.b, c.a⟩) ∧
    Color.grayscaled (α := ℚ) ⟨v, v, v, a⟩ = ⟨v, v, v, a⟩ ∧
    Color.grayscaled (α := ℚ) ⟨255, 0, 0, 17⟩ = ⟨76, 76, 76, 17⟩ ∧
    Color.grayscaled (α := ℚ) ⟨0, 255, 0, 17⟩ = ⟨150, 150, 150, 17⟩ ∧
    Color.grayscaled (α := ℚ) ⟨0, 0, 255, 17⟩ = ⟨29, 29, 29, 17⟩ := by
  refine ⟨rfl, ?_, ?_, ?_, ?_⟩
  · simp only [Color.grayscaled, Color.mk.injEq]
    exact ⟨grayLevel_diag v hv, grayLevel_diag v hv, grayLevel_diag v hv, trivial⟩
  · simp only [Color.grayscaled, Color.mk.injEq]
    exact ⟨grayLevel_red, grayLevel_red, grayLevel_red, trivial⟩
  · simp only [Color.grayscaled, Color.mk.injEq]
    exact ⟨grayLevel_green, grayLevel_green, grayLevel_green, trivial⟩
  · simp only [Color.grayscaled, Color.mk.injEq]
    exact ⟨grayLevel_blue, grayLevel_blue, grayLevel_blue, trivial⟩

/-- C7 witness: the grayscale properties at color (1,2,3,4), gray level 5,
alpha 7. -/
theorem c7_grayscale_witness :
    5 < 256 ∧
    ((Color.grayscaled (α := ℚ) ⟨1, 2, 3, 4⟩ =
      ⟨grayLevel (α := ℚ) 1 2 3, grayLevel (α := ℚ) 1 2 3, grayLevel (α := ℚ) 1 2 3, 4⟩) ∧
    Color.grayscaled (α := ℚ) ⟨5, 5, 5, 7⟩ = ⟨5, 5, 5, 7⟩ ∧
    Color.grayscaled (α := ℚ) ⟨255, 0, 0, 17⟩ = ⟨76, 76, 76, 17⟩ ∧
    Color.grayscaled (α := ℚ) ⟨0, 255, 0, 17⟩ = ⟨150, 150, 150, 17⟩ ∧
    Color.grayscaled (α := ℚ) ⟨0, 0, 255, 17⟩ = ⟨29, 29, 29, 17⟩) :=
  ⟨by omega, c7_grayscale ⟨1, 2, 3, 4⟩ 5 7 (by omega)⟩

/-! ### C8 — saturating addition and subtraction -/

/-- C8: channel-wise, color+color saturates at 255 (min(255, a+b)) and
color−color floors at 0 (max(0, a−b)) in every channel including alpha;
no wrap-around occurs. -/
theorem c8_add_sub_saturate (x y : Color) :
    ((x.add y).r = min 255 (x.r + y.r) ∧ (x.add y).g = min 255 (x.g + y.g) ∧
     (x.add y).b = min 255 (x.b + y.b) ∧ (x.add y).a = min 255 (x.a + y.a)) ∧
    (((x.sub y).r : ℤ) = max 0 ((x.r : ℤ) - y.r) ∧
     ((x.sub y).g : ℤ) = max 0 ((x.g : ℤ) - y.g) ∧
     ((x.sub y).b : ℤ) = max 0 ((x.b : ℤ) - y.b) ∧
     ((x.sub y).a : ℤ) = max 0 ((x.a : ℤ) - y.a)) := by
  simp only [Color.add, Color.sub]
  constructor
  · refine ⟨?_, ?_, ?_, ?_⟩ <;> (split_ifs with h <;> omega)
  · refine ⟨?_, ?_, ?_, ?_⟩ <;> (split_ifs with h <;> push_cast <;> omega)

/-! ### Material (objects.h) -/

/-- Clamp a coefficient into [0,1]; objects.h documents every coefficient
setter as: less than 0 becomes 0, greater than 1 becomes 1. -/
def clamp01 (x : ℝ) : ℝ := max 0 (min 1 x)

/-- Modelled from the spec: `bardrix::color::white()` (color.h is not among
the sources), the default material color. -/
def colorWhite : Color := ⟨255, 255, 255, 255⟩

/-- A `bardrix::material` from objects.h: a color plus the four Phong
coefficients (doubles). -/
structure Material where
  color : Color
  ambient : ℝ
  diffuse : ℝ
  specular : ℝ
  shininess : ℝ

def Material.get_ambient (m : Material) : ℝ := m.ambient

def Material.get_diffuse (m : Material) : ℝ := m.diffuse

def Material.get_specular (m : Material) : ℝ := m.specular

def Material.get_shininess (m : Material) : ℝ := m.shininess

/-- Modelled from the spec: `material::set_ambient` (member bodies are not
among the sources) — clamp to [0,1] per the objects.h doc comment. -/
def Material.set_ambient (m : Material) (x : ℝ) : Material :=
  { m with ambient := clamp01 x }

/-- Modelled from the spec: `material::set_diffuse` — clamp to [0,1], store
it, and set specular to 1 − diffuse (objects.h: "sets the diffuse and
specular coefficients, ensuring that they add up to 1"). -/
def Material.set_diffuse (m : Material) (x : ℝ) : Material :=
  { m with diffuse := clamp01 x, specular := 1 - clamp01 x }

/-- Modelled from the spec: `material::set_specular` — clamp to [0,1], store
it, and set diffuse to 1 − specular. -/
def Material.set_specular (m : Material) (x : ℝ) : Material :=
  { m with specular := clamp01 x, diffuse := 1 - clamp01 x }

/-- Modelled from the spec: `material::set_shininess` — clamp below at 0
(the spec notes no upper clamp despite the header comment suggesting one). -/
def Material.set_shininess (m : Material) (x : ℝ) : Material :=
  { m with shininess := max 0 x }

/-- The default material of objects.h: white, ambient 0, diffuse 1,
specular 0, shininess 0. -/
def materialDefault : Material := ⟨colorWhite, 0, 1, 0, 0⟩

/-- Modelled from the spec: the (ambient, diffuse, shininess) constructor —
coefficients go through the clamping setters and specular is derived as
1 − diffuse. -/
def materialMk (ambient diffuse shininess : ℝ) : Material :=
  ((materialDefault.set_ambient ambient).set_diffuse diffuse).set_shininess shininess

/-- Modelled from the spec: the (color, ambient, diffuse, shininess)
constructor. -/
def materialMkColor (color : Color) (ambient diffuse shininess : ℝ) : Material :=
  { materialMk ambient diffuse shininess with color := color }

/-! ### C4 — diffuse + specular invariant -/

/-- C4: after construction (default or either explicit constructor) and
after any call to set_diffuse or set_specular with any double input
(clamped to [0,1] first), get_diffuse() + get_specular() = 1. -/
theorem c4_diffuse_specular_invariant (m : Material) (col : Color)
    (am d sp sh : ℝ) :
    materialDefault.get_diffuse + materialDefault.get_specular = 1 ∧
    (materialMk am d sh).get_diffuse + (materialMk am d sh).get_specular = 1 ∧
    (materialMkColor col am d sh).get_diffuse +
      (materialMkColor col am d sh).get_specular = 1 ∧
    (m.set_diffuse d).get_diffuse + (m.set_diffuse d).get_specular = 1 ∧
    (m.set_specular sp).get_diffuse + (m.set_specular sp).get_specular = 1 := by
  refine ⟨?_, ?_, ?_, ?_, ?_⟩ <;>
    simp [materialDefault, materialMk, materialMkColor, Material.set_ambient,
      Material.set_diffuse, Material.set_specular, Material.set_shininess,
      Material.get_diffuse, Material.get_specular]

/-! ### Geometry primitives (spec section 3: Ray / Point / Vector) -/

/-- A 3D point (bardrix::point3; the geometry headers are not among the
sources, so the primitives are modelled from the spec's contract). -/
structure Point3 where
  x : ℝ
  y : ℝ
  z : ℝ

/-- A 3D vector (bardrix::vector3). -/
structure Vec3 where
  x : ℝ
  y : ℝ
  z : ℝ

/-- Modelled from the spec: the dot product of the vector primitive. -/
def Vec3.dot (u v : Vec3) : ℝ :=
  u.x * v.x + u.y * v.y + u.z * v.z

/-- Modelled from the spec: vector magnitude, used by normalization. -/
noncomputable def Vec3.length (v : Vec3) : ℝ :=
  Real.sqrt (v.dot v)

/-- Modelled from the spec: `vector3::normalized` — the vector scaled by the
reciprocal of its magnitude. -/
noncomputable def Vec3.normalized (v : Vec3) : Vec3 :=
  ⟨v.x / v.length, v.y / v.length, v.z / v.length⟩

/-- Modelled from the spec: `point3::vector_to` — subtraction-to-vector,
the vector from `p` to `q`. -/
def Point3.vector_to (p q : Point3) : Vec3 :=
  ⟨q.x - p.x, q.y - p.y, q.z - p.z⟩

/-- Modelled from the spec (step 3 of the Illuminator): the mirror
reflection `quaternion::mirror` of `v` about the unit normal `n`:
`2 (n·v) n − v`. -/
def mirror (v n : Vec3) : Vec3 :=
  ⟨2 * (n.dot v) * n.x - v.x, 2 * (n.dot v) * n.y - v.y, 2 * (n.dot v) * n.z - v.z⟩

/-- A ray: origin point plus (normalized) direction vector. -/
structure Ray where
  origin : Point3
  direction : Vec3

/-- A `bardrix::light`: position point, intensity scalar, color. -/
structure Light where
  position : Point3
  intensity : ℝ
  color : Color

/-- Modelled from the spec: `light::inverse_square_law` — attenuation =
intensity / distance². -/
noncomputable def Light.inverse_square_law (l : Light) (p : Point3) : ℝ :=
  l.intensity / (p.vector_to l.position).length ^ 2

/-- The camera, as used by `calculate_light_intensity` (only its position
enters the lighting computation; ray generation is out of scope). -/
structure Camera where
  position : Point3

/-- The `bardrix::shape` interface of objects.h, restricted to the members
the render path reads: `intersection`, `normal_at` and `get_material`. -/
structure Surface where
  intersection : Ray → Option Point3
  normal_at : Point3 → Vec3
  material : Material

/-! ### calculate_light_intensity (src/unnamed/part_000) -/

/-- `calculate_light_intensity` from part_000: normalize the vector from
the intersection point to the light, take its dot product with the surface
normal (`angle`); if `angle < 0` return 0; otherwise form the mirror
reflection, the specular angle against the normalized camera-to-point
vector, raise it to the material's shininess (`std::pow`, modelled by the
real power `Real.rpow`), combine ambient + diffuse·angle +
specular·specular_term, attenuate by the inverse square law, and clamp
from above by 1.  The real power `x ^ y` here is `Real.rpow`, which agrees
with `std::pow` on the exponents evaluated in this file (0 and 1). -/
noncomputable def calculate_light_intensity (s : Surface) (l : Light)
    (cam : Camera) (p : Point3) : ℝ :=
  let light_intersection_vector := (p.vector_to l.position).normalized
  let angle := (s.normal_at p).dot light_intersection_vector
  if angle < 0 then 0
  else
    let reflection := mirror light_intersection_vector (s.normal_at p)
    let specular_angle := reflection.dot ((cam.position.vector_to p).normalized)
    let specular := specular_angle ^ s.material.get_shininess
    let intensity := s.material.get_ambient + s.material.get_diffuse * angle +
      s.material.get_specular * specular
    min 1 (intensity * l.inverse_square_law p)

/-! ### The per-pixel render loop (window.on_paint in part_000) -/

/-- Modelled from the spec: `bardrix::color::green()` (color.h is not among
the sources) — the color (0, 255, 0), fully opaque. -/
def colorGreen : Color := ⟨0, 255, 0, 255⟩

/-- Modelled from the spec: `color::blended` (not among the sources; the
spec describes it only as a weighted combination of two colors) — the
equal-weight channel-wise average. -/
def Color.blended (c o : Color) : Color :=
  ⟨(c.r + o.r) / 2, (c.g + o.g) / 2, (c.b + o.b) / 2, (c.a + o.a) / 2⟩

/-- The inner loop of `window.on_paint` for one surface hit: starting from
`intensity = 0`, for each light accumulate `calculate_light_intensity` and
overwrite the pixel color with
`l.color.blended(material.color) * intensity`.  `c0` is the pixel color
before the loop (it survives only when the light list is empty). -/
noncomputable def lightLoop (s : Surface) (cam : Camera) (p : Point3)
    (c0 : Color) (lights : List Light) : Color :=
  (lights.foldl (fun acc l =>
      let i := acc.1 + calculate_light_intensity s l cam p
      (i, Color.mulScalar (l.color.blended s.material.color) i)) ((0 : ℝ), c0)).2

/-- The per-pixel body of `window.on_paint`: the color starts as green and,
for each surface in order whose intersection is non-empty, is overwritten
by the light loop's result for that surface's hit. -/
noncomputable def renderPixel (ray : Ray) (surfaces : List Surface)
    (lights : List Light) (cam : Camera) : Color :=
  surfaces.foldl (fun c s =>
    match s.intersection ray with
    | some p => lightLoop s cam p c lights
    | none => c) colorGreen

/-- The ray parameter of a point: the signed distance of `p` along the
ray's (normalized) direction from its origin. -/
def rayParam (ray : Ray) (p : Point3) : ℝ :=
  (ray.origin.vector_to p).dot ray.direction

/-- Stated from the claim's words (for comparison with `renderPixel`): the
hit with the smallest ray parameter among all surfaces the ray intersects. -/
noncomputable def nearestHit (ray : Ray) (surfaces : List Surface) :
    Option (Surface × Point3) :=
  surfaces.foldl (fun best s =>
    match s.intersection ray with
    | none => best
    | some p =>
      match best with
      | none => some (s, p)
      | some sp => if rayParam ray p < rayParam ray sp.2 then some (s, p) else some sp) none

/-- Stated from the claim's words: render by shading only the nearest hit
(green when nothing is hit). -/
noncomputable def renderPixelNearest (ray : Ray) (surfaces : List Surface)
    (lights : List Light) (cam : Camera) : Color :=
  match nearestHit ray surfaces with
  | none => colorGreen
  | some sp => lightLoop sp.1 cam sp.2 colorGreen lights

/-- The hit of the last surface in iteration order whose intersection is
non-empty — what the loop in part_000 actually keeps. -/
def lastHit (ray : Ray) (surfaces : List Surface) : Option (Surface × Point3) :=
  surfaces.foldl (fun acc s =>
    match s.intersection ray with
    | some p => some (s, p)
    | none => acc) none

/-! ### C5 — light behind the surface contributes exactly 0 -/

/-- C5: whenever the dot product of the surface normal at the intersection
point with the normalized vector from the point to the light is negative,
`calculate_light_intensity` returns exactly 0, for every surface, light,
camera and point (hence regardless of distance, light intensity, or the
material's coefficients). -/
theorem c5_light_behind (s : Surface) (l : Light) (cam : Camera) (p : Point3)
    (h : (s.normal_at p).dot ((p.vector_to l.position).normalized) < 0) :
    calculate_light_intensity s l cam p = 0 := by
  simp only [calculate_light_intensity]
  rw [if_pos h]

def surfC5 : Surface := ⟨fun _ => none, fun _ => ⟨0, 0, 1⟩, materialDefault⟩

def lightC5 : Light := ⟨⟨0, 0, -1⟩, 1, colorWhite⟩

def camC5 : Camera := ⟨⟨0, 0, 5⟩⟩

def pC5 : Point3 := ⟨0, 0, 0⟩

/-- C5 witness: a light directly behind the normal (normal (0,0,1), light
at (0,0,−1) from the point (0,0,0)) has angle −1 < 0 and contributes 0. -/
theorem c5_light_behind_witness :
    (surfC5.normal_at pC5).dot ((pC5.vector_to lightC5.position).normalized) < 0 ∧
      calculate_light_intensity surfC5 lightC5 camC5 pC5 = 0 := by
  have h : (surfC5.normal_at pC5).dot ((pC5.vector_to lightC5.position).normalized) < 0 := by
    simp only [surfC5, pC5, lightC5, Point3.vector_to, Vec3.normalized, Vec3.length, Vec3.dot]
    norm_num [Real.sqrt_one]
  exact ⟨h, c5_light_behind surfC5 lightC5 camC5 pC5 h⟩

/-! ### C10 — no lower clamp on the intensity -/

def matC10 : Material := materialMk 0 0 1

def surfC10 : Surface := ⟨fun _ => none, fun _ => ⟨0, 0, 1⟩, matC10⟩

def lightC10 : Light := ⟨⟨0, 0, 1⟩, 1, colorWhite⟩

def camC10 : Camera := ⟨⟨0, 0, 1⟩⟩

def pC10 : Point3 := ⟨0, 0, 0⟩

/-- C10: the final `min(1.0, ...)` clamps only from above; with the light
angle 1 ≥ 0, specular reflection dot product −1, odd integer shininess 1 and
specular coefficient 1 outweighing ambient 0 and diffuse 0, the function
returns −1 < 0. -/
theorem c10_negative_intensity :
    0 ≤ (surfC10.normal_at pC10).dot ((pC10.vector_to lightC10.position).normalized) ∧
      calculate_light_intensity surfC10 lightC10 camC10 pC10 < 0 := by
  have hL : (pC10.vector_to lightC10.position).normalized = ⟨0, 0, 1⟩ := by
    simp only [pC10, lightC10, Point3.vector_to, Vec3.normalized, Vec3.length, Vec3.dot]
    norm_num [Real.sqrt_one]
  have hangle : (surfC10.normal_at pC10).dot ((pC10.vector_to lightC10.position).normalized)
      = 1 := by
    rw [hL]
    simp only [surfC10, Vec3.dot]
    norm_num
  refine ⟨by rw [hangle]; norm_num, ?_⟩
  have hview : (camC10.position.vector_to pC10).normalized = ⟨0, 0, -1⟩ := by
    simp only [camC10, pC10, Point3.vector_to, Vec3.normalized, Vec3.length, Vec3.dot]
    norm_num [Real.sqrt_one]
  have hrefl : mirror ((pC10.vector_to lightC10.position).normalized) (surfC10.normal_at pC10)
      = ⟨0, 0, 1⟩ := by
    rw [hL]
    simp only [surfC10, mirror, Vec3.dot]
    norm_num
  have hspec : (mirror ((pC10.vector_to lightC10.position).normalized)
      (surfC10.normal_at pC10)).dot ((camC10.position.vector_to pC10).normalized) = -1 := by
    rw [hrefl, hview]
    simp only [Vec3.dot]
    norm_num
  have hshin : surfC10.material.get_shininess = 1 := by
    simp only [surfC10, matC10, materialMk, materialDefault, Material.set_ambient,
      Material.set_diffuse, Material.set_shininess, Material.get_shininess]
    norm_num
  have hamb : surfC10.material.get_ambient = 0 := by
    simp only [surfC10, matC10, materialMk, materialDefault, Material.set_ambient,
      Material.set_diffuse, Material.set_shininess, Material.get_ambient, clamp01]
    norm_num
  have hdif : surfC10.material.get_diffuse = 0 := by
    simp only [surfC10, matC10, materialMk, materialDefault, Material.set_ambient,
      Material.set_diffuse, Material.set_shininess, Material.get_diffuse, clamp01]
    norm_num
  have hspc : surfC10.material.get_specular = 1 := by
    simp only [surfC10, matC10, materialMk, materialDefault, Material.set_ambient,
      Material.set_diffuse, Material.set_shininess, Material.get_specular, clamp01]
    norm_num
  have hatt : lightC10.inverse_square_law pC10 = 1 := by
    simp only [lightC10, pC10, Light.inverse_square_law, Point3.vector_to, Vec3.length, Vec3.dot]
    norm_num [Real.sqrt_one]
  simp only [calculate_light_intensity]
  rw [hangle, if_neg (by norm_num), hspec, hshin, hamb, hdif, hspc, hatt]
  rw [Real.rpow_one]
  norm_num

/-! ### C9 — the no-hit default color is green -/

lemma renderPixel_no_hit_aux (ray : Ray) (lights : List Light) (cam : Camera) :
    ∀ (surfaces : List Surface) (c : Color),
      (∀ s ∈ surfaces, s.intersection ray = none) →
      surfaces.foldl (fun c s =>
        match s.intersection ray with
        | some p => lightLoop s cam p c lights
        | none => c) c = c := by
  intro surfaces
  induction surfaces with
  | nil => intro c h; rfl
  | cons s tl ih =>
    intro c h
    rw [List.foldl_cons]
    have hs : s.intersection ray = none := h s (List.mem_cons_self s tl)
    simp only [hs]
    exact ih c fun s' hs' => h s' (List.mem_cons_of_mem _ hs')

/-- C9: when no surface intersects the pixel's ray, the render loop's color
stays at its initial value, which is green (0, 255, 0) — not black. -/
theorem c9_no_hit_green (ray : Ray) (surfaces : List Surface)
    (lights : List Light) (cam : Camera)
    (h : ∀ s ∈ surfaces, s.intersection ray = none) :
    renderPixel ray surfaces lights cam = colorGreen ∧
      colorGreen.r = 0 ∧ colorGreen.g = 255 ∧ colorGreen.b = 0 :=
  ⟨renderPixel_no_hit_aux ray lights cam surfaces colorGreen h, rfl, rfl, rfl⟩

/-- C9 witness: the empty scene at a concrete ray and camera. -/
theorem c9_no_hit_green_witness :
    (∀ s ∈ ([] : List Surface), s.intersection ⟨⟨0, 0, 0⟩, ⟨0, 0, 1⟩⟩ = none) ∧
      (renderPixel ⟨⟨0, 0, 0⟩, ⟨0, 0, 1⟩⟩ [] [] ⟨⟨0, 0, 0⟩⟩ = colorGreen ∧
        colorGreen.r = 0 ∧ colorGreen.g = 255 ∧ colorGreen.b = 0) := by
  have h : ∀ s ∈ ([] : List Surface), s.intersection ⟨⟨0, 0, 0⟩, ⟨0, 0, 1⟩⟩ = none := by
    simp
  exact ⟨h, c9_no_hit_green ⟨⟨0, 0, 0⟩, ⟨0, 0, 1⟩⟩ [] [] ⟨⟨0, 0, 0⟩⟩ h⟩

/-! ### C3 — which hit does the render loop keep? -/

/-- With at least one light, the light loop's result does not depend on the
incoming pixel color: the last light's write overwrites it. -/
lemma lightLoop_init_indep (s : Surface) (cam : Camera) (p : Point3)
    (lights : List Light) (h : lights ≠ []) (c0 c0' : Color) :
    lightLoop s cam p c0 lights = lightLoop s cam p c0' lights := by
  cases lights with
  | nil => exact absurd rfl h
  | cons l ls => simp only [lightLoop, List.foldl_cons]

/-- Folding the keep-the-last-hit step from an arbitrary accumulator equals
folding from `none` with the accumulator as fallback. -/
lemma foldl_lastHit_general (ray : Ray) :
    ∀ (tl : List Surface) (b : Option (Surface × Point3)),
      tl.foldl (fun acc s =>
        match s.intersection ray with
        | some p => some (s, p)
        | none => acc) b =
      match tl.foldl (fun acc s =>
        match s.intersection ray with
        | some p => some (s, p)
        | none => acc) none with
      | some x => some x
      | none => b := by
  intro tl
  induction tl with
  | nil => intro b; rfl
  | cons s tl ih =>
    intro b
    rw [List.foldl_cons, List.foldl_cons]
    rcases hs : s.intersection ray with _ | p
    · simp only [hs]
      exact ih b
    · simp only [hs]
      rw [ih (some (s, p))]
      cases hfold : tl.foldl (fun acc s =>
        match s.intersection ray with
        | some p => some (s, p)
        | none => acc) none with
      | none => rfl
      | some sp => rfl

lemma renderPixel_eq_lastHit_aux (ray : Ray) (lights : List Light)
    (cam : Camera) (hl : lights ≠ []) :
    ∀ (surfaces : List Surface) (c0 : Color),
      surfaces.foldl (fun c s =>
        match s.intersection ray with
        | some p => lightLoop s cam p c lights
        | none => c) c0 =
      match surfaces.foldl (fun acc s =>
        match s.intersection ray with
        | some p => some (s, p)
        | none => acc) none with
      | none => c0
      | some sp => lightLoop sp.1 cam sp.2 colorGreen lights := by
  intro surfaces
  induction surfaces with
  | nil => intro c0; rfl
  | cons s tl ih =>
    intro c0
    rw [List.foldl_cons, List.foldl_cons]
    rcases hs : s.intersection ray with _ | p
    · simp only [hs]
      exact ih c0
    · simp only [hs]
      rw [ih (lightLoop s cam p c0 lights), foldl_lastHit_general ray tl (some (s, p))]
      cases hfold : tl.foldl (fun acc s =>
        match s.intersection ray with
        | some p => some (s, p)
        | none => acc) none with
      | none => exact lightLoop_init_indep s cam p lights hl c0 colorGreen
      | some sp => rfl

/-- C3 (amended): with a nonempty light list, the render loop's pixel color
comes from the hit of the LAST surface in iteration order whose intersection
is non-empty — not from the nearest hit; with no hit it stays green. -/
theorem c3_render_keeps_last_hit (ray : Ray) (surfaces : List Surface)
    (lights : List Light) (cam : Camera) (hl : lights ≠ []) :
    renderPixel ray surfaces lights cam =
      match lastHit ray surfaces with
      | none => colorGreen
      | some sp => lightLoop sp.1 cam sp.2 colorGreen lights :=
  renderPixel_eq_lastHit_aux ray lights cam hl surfaces colorGreen

/-- C3 witness: the amended statement at the empty scene with one light. -/
theorem c3_render_keeps_last_hit_witness :
    (([⟨⟨0, 0, 0⟩, 1, colorWhite⟩] : List Light) ≠ []) ∧
      renderPixel ⟨⟨0, 0, 0⟩, ⟨0, 0, 1⟩⟩ [] [⟨⟨0, 0, 0⟩, 1, colorWhite⟩] ⟨⟨0, 0, 0⟩⟩ =
        match lastHit ⟨⟨0, 0, 0⟩, ⟨0, 0, 1⟩⟩ [] with
        | none => colorGreen
        | some sp =>
            lightLoop sp.1 ⟨⟨0, 0, 0⟩⟩ sp.2 colorGreen [⟨⟨0, 0, 0⟩, 1, colorWhite⟩] := by
  have hl : ([⟨⟨0, 0, 0⟩, 1, colorWhite⟩] : List Light) ≠ [] := by simp
  exact ⟨hl, c3_render_keeps_last_hit ⟨⟨0, 0, 0⟩, ⟨0, 0, 1⟩⟩ [] _ ⟨⟨0, 0, 0⟩⟩ hl⟩

/-! ### C3 counterexample scene: two hits, the nearer one first in order -/

def matC3 : Material := materialMk 0 1 0

def pA : Point3 := ⟨0, 0, 1⟩

def pB : Point3 := ⟨0, 0, 2⟩

def surfA : Surface := ⟨fun _ => some pA, fun _ => ⟨0, 0, -1⟩, matC3⟩

def surfB : Surface := ⟨fun _ => some pB, fun _ => ⟨0, 0, -1⟩, matC3⟩

def lightC3 : Light := ⟨⟨0, 0, 0⟩, 1, colorWhite⟩

def camC3 : Camera := ⟨⟨0, 0, 0⟩⟩

def rayC3 : Ray := ⟨⟨0, 0, 0⟩, ⟨0, 0, 1⟩⟩

lemma matC3_ambient : matC3.get_ambient = 0 := by
  simp only [matC3, materialMk, materialDefault, Material.set_ambient,
    Material.set_diffuse, Material.set_shininess, Material.get_ambient, clamp01]
  norm_num

lemma matC3_diffuse : matC3.get_diffuse = 1 := by
  simp only [matC3, materialMk, materialDefault, Material.set_ambient,
    Material.set_diffuse, Material.set_shininess, Material.get_diffuse, clamp01]
  norm_num

lemma matC3_specular : matC3.get_specular = 0 := by
  simp only [matC3, materialMk, materialDefault, Material.set_ambient,
    Material.set_diffuse, Material.set_shininess, Material.get_specular, clamp01]
  norm_num

lemma calcA : calculate_light_intensity surfA lightC3 camC3 pA = 1 := by
  have hL : (pA.vector_to lightC3.position).normalized = ⟨0, 0, -1⟩ := by
    simp only [pA, lightC3, Point3.vector_to, Vec3.normalized, Vec3.length, Vec3.dot]
    norm_num [Real.sqrt_one]
  have hangle : (surfA.normal_at pA).dot ((pA.vector_to lightC3.position).normalized) = 1 := by
    rw [hL]
    simp only [surfA, Vec3.dot]
    norm_num
  have hatt : lightC3.inverse_square_law pA = 1 := by
    simp only [lightC3, pA, Light.inverse_square_law, Point3.vector_to, Vec3.length, Vec3.dot]
    norm_num [Real.sqrt_one]
  have hamb : surfA.material.get_ambient = 0 := matC3_ambient
  have hdif : surfA.material.get_diffuse = 1 := matC3_diffuse
  have hspc : surfA.material.get_specular = 0 := matC3_specular
  simp only [calculate_light_intensity]
  rw [hangle, if_neg (by norm_num), hamb, hdif, hspc, hatt]
  norm_num

lemma calcB : calculate_light_intensity surfB lightC3 camC3 pB = 1 / 4 := by
  have hsq : Real.sqrt 4 = 2 := by
    rw [show (4 : ℝ) = 2 ^ 2 by norm_num, Real.sqrt_sq (by norm_num : (0 : ℝ) ≤ 2)]
  have hL : (pB.vector_to lightC3.position).normalized = ⟨0, 0, -1⟩ := by
    simp only [pB, lightC3, Point3.vector_to, Vec3.normalized, Vec3.length, Vec3.dot]
    norm_num [hsq]
  have hangle : (surfB.normal_at pB).dot ((pB.vector_to lightC3.position).normalized) = 1 := by
    rw [hL]
    simp only [surfB, Vec3.dot]
    norm_num
  have hatt : lightC3.inverse_square_law pB = 1 / 4 := by
    simp only [lightC3, pB, Light.inverse_square_law, Point3.vector_to, Vec3.length, Vec3.dot]
    norm_num [hsq]
  have hamb : surfB.material.get_ambient = 0 := matC3_ambient
  have hdif : surfB.material.get_diffuse = 1 := matC3_diffuse
  have hspc : surfB.material.get_specular = 0 := matC3_specular
  simp only [calculate_light_intensity]
  rw [hangle, if_neg (by norm_num), hamb, hdif, hspc, hatt]
  norm_num

lemma mulWhiteOne : Color.mulScalar colorWhite (1 : ℝ) = colorWhite := by
  have hnt : ¬ lessThanOrNearlyEqual (1 : ℝ) 0 :=
    not_lessThanOrNearlyEqual_of_le (by unfold tolEps; norm_num)
  simp only [Color.mulScalar, if_neg hnt, colorWhite]
  have harg : (((255 : ℕ) : ℝ)) * 1 = 255 := by push_cast; ring
  rw [harg, if_pos (by norm_num : (255 : ℝ) ≤ 255), castUchar_255]

lemma mulWhiteQuarter : Color.mulScalar colorWhite ((1 : ℝ) / 4) = ⟨63, 63, 63, 63⟩ := by
  have hnt : ¬ lessThanOrNearlyEqual ((1 : ℝ) / 4) 0 :=
    not_lessThanOrNearlyEqual_of_le (by unfold tolEps; norm_num)
  simp only [Color.mulScalar, if_neg hnt, colorWhite]
  have harg : (((255 : ℕ) : ℝ)) * (1 / 4) = 255 / 4 := by push_cast; ring
  have hfl : ⌊(255 : ℝ) / 4⌋ = 63 := by
    rw [Int.floor_eq_iff]
    norm_num
  rw [harg, if_pos (by norm_num : (255 : ℝ) / 4 ≤ 255),
    castUchar_of_nonneg_le (by norm_num) (by rw [hfl]; norm_num), hfl]
  rfl

lemma lightLoopA (c0 : Color) :
    lightLoop surfA camC3 pA c0 [lightC3] = colorWhite := by
  have h0 : lightLoop surfA camC3 pA c0 [lightC3] =
      Color.mulScalar (Color.blended lightC3.color surfA.material.color)
        (0 + calculate_light_intensity surfA lightC3 camC3 pA) := rfl
  have hbl : Color.blended lightC3.color surfA.material.color = colorWhite := rfl
  rw [h0, hbl, calcA, zero_add, mulWhiteOne]

lemma lightLoopB (c0 : Color) :
    lightLoop surfB camC3 pB c0 [lightC3] = ⟨63, 63, 63, 63⟩ := by
  have h0 : lightLoop surfB camC3 pB c0 [lightC3] =
      Color.mulScalar (Color.blended lightC3.color surfB.material.color)
        (0 + calculate_light_intensity surfB lightC3 camC3 pB) := rfl
  have hbl : Color.blended lightC3.color surfB.material.color = colorWhite := rfl
  rw [h0, hbl, calcB, zero_add, mulWhiteQuarter]

lemma paramA : rayParam rayC3 pA = 1 := by
  simp only [rayParam, rayC3, pA, Point3.vector_to, Vec3.dot]
  norm_num

lemma paramB : rayParam rayC3 pB = 2 := by
  simp only [rayParam, rayC3, pB, Point3.vector_to, Vec3.dot]
  norm_num

lemma renderPixel_scene :
    renderPixel rayC3 [surfA, surfB] [lightC3] camC3 = ⟨63, 63, 63, 63⟩ := by
  have hred : renderPixel rayC3 [surfA, surfB] [lightC3] camC3 =
      lightLoop surfB camC3 pB (lightLoop surfA camC3 pA colorGreen [lightC3]) [lightC3] := rfl
  rw [hred, lightLoopA, lightLoopB]

lemma nearestHit_scene : nearestHit rayC3 [surfA, surfB] = some (surfA, pA) := by
  have hred : nearestHit rayC3 [surfA, surfB] =
      if rayParam rayC3 pB < rayParam rayC3 pA then some (surfB, pB)
      else some (surfA, pA) := rfl
  rw [hred, paramA, paramB, if_neg (by norm_num)]

lemma renderPixelNearest_scene :
    renderPixelNearest rayC3 [surfA, surfB] [lightC3] camC3 = colorWhite := by
  simp only [renderPixelNearest, nearestHit_scene]
  exact lightLoopA colorGreen

/-- C3 counterexample: both surfaces intersect the ray, the first (surfA,
parameter 1) is nearer than the second (surfB, parameter 2), yet the render
loop's pixel color (63,63,63,63), computed from the last surface in
iteration order, differs from the color (255,255,255,255) that shading the
nearest hit would give. -/
theorem c3_nearest_counterexample :
    surfA.intersection rayC3 = some pA ∧ surfB.intersection rayC3 = some pB ∧
    rayParam rayC3 pA < rayParam rayC3 pB ∧
    renderPixel rayC3 [surfA, surfB] [lightC3] camC3 ≠
      renderPixelNearest rayC3 [surfA, surfB] [lightC3] camC3 := by
  refine ⟨rfl, rfl, ?_, ?_⟩
  · rw [paramA, paramB]
    norm_num
  · rw [renderPixel_scene, renderPixelNearest_scene]
    decide
